import Mathlib

/- Shallow embedding of the OPEN-ICE per-pixel spring-breakup pipeline:
   sequenceDetection.py, logisticFilter.py, dummyWater.py and the
   algorithmic part (steps 4 and 5) of breakupDetection.py.

   Modelling conventions, per pixel:
   * an Earth Engine image restricted to one pixel is a record of its band
     values; a pixel masked out by updateMask (which the pipeline always
     applies across all bands of an image at once) is `none`;
   * an image collection restricted to one pixel is a `List` of such
     options, listed in chronologically ascending system:time_start order
     (the per-image maps and the per-pixel sums and means used below are
     order independent, and detectSpringBreakup re-sorts ascending before
     iterating, so this loses no generality);
   * uint16 band values are `Nat`s, with `% 2 ^ 16` applied exactly where
     the code casts with toUint16;
   * the linearized-logistic solve (ee.Reducer.linearRegression) together
     with the log/exp transforms is transcendental, so the composite
     per-observation fitted value p(x) = exp(B0 + B1*x)/(1 + exp(B0 + B1*x))
     is abstracted as a rational-valued function parameter fittedFn of the
     time covariate; everything the code then does with the fitted values
     (residuals, the 0.85 cutoff, R-squared, band assembly) is embedded
     exactly from the source. -/

/-- One classified observation at one pixel, as prepared by
prep4ChangeDetection (sequenceDetection.py lines 89-98): the classIce band
(ice = 1, water = 0) and the t band (day of year). -/
structure Obs where
  classIce : Nat
  t : Nat
deriving DecidableEq

/-- The per-pixel bands of the iterated accumulator image iceBreakupImg:
current observation (classIce, t), the two previous present observations
(classIce_1, t_1) and (classIce_2, t_2), and the seqDetected flag
(sequenceDetection.py lines 27-32). -/
structure BreakupState where
  classIce : Nat
  t : Nat
  classIce_1 : Nat
  t_1 : Nat
  classIce_2 : Nat
  t_2 : Nat
  seqDetected : Nat
deriving DecidableEq

/-- The ice-water-water test of sequenceDetection.py lines 64-71:
cond1 = current classIce eq 0, cond2 = lag-1 classIce eq 0,
cond3 = lag-2 classIce eq 1, seqDetected = all three (sum eq 3). -/
def seqCond (c c1 c2 : Nat) : Nat :=
  if c = 0 ∧ c1 = 0 ∧ c2 = 1 then 1 else 0

/-- The iterated step of sequenceDetection.py lines 19-84, restricted to one
pixel.  pixels2Update holds when the incoming image has data at the pixel
and no sequence has been detected there; in that case the three slots are
shifted (current to lag1, lag1 to lag2) and the incoming observation is
installed as current.  In every case seqDetected is recomputed from the
(possibly unchanged) updated slots. -/
def breakupDate (image : Option Obs) (iceBreakupImg : BreakupState) : BreakupState :=
  match image with
  | some o =>
    if iceBreakupImg.seqDetected = 1 then
      ⟨iceBreakupImg.classIce, iceBreakupImg.t,
        iceBreakupImg.classIce_1, iceBreakupImg.t_1,
        iceBreakupImg.classIce_2, iceBreakupImg.t_2,
        seqCond iceBreakupImg.classIce iceBreakupImg.classIce_1 iceBreakupImg.classIce_2⟩
    else
      ⟨o.classIce, o.t,
        iceBreakupImg.classIce, iceBreakupImg.t,
        iceBreakupImg.classIce_1, iceBreakupImg.t_1,
        seqCond o.classIce iceBreakupImg.classIce iceBreakupImg.classIce_1⟩
  | none =>
    ⟨iceBreakupImg.classIce, iceBreakupImg.t,
      iceBreakupImg.classIce_1, iceBreakupImg.t_1,
      iceBreakupImg.classIce_2, iceBreakupImg.t_2,
      seqCond iceBreakupImg.classIce iceBreakupImg.classIce_1 iceBreakupImg.classIce_2⟩

/-- imgCol.iterate(breakupDate, iceBreakupImg)
(sequenceDetection.py line 123), per pixel. -/
def iterateBreakup (imgCol : List (Option Obs)) (init : BreakupState) : BreakupState :=
  imgCol.foldl (fun s img => breakupDate img s) init

/-- The initial all-ice, not-yet-detected accumulator built in
detectSpringBreakup (sequenceDetection.py lines 111-119): every slot holds
classIce = 1 with t = day of year of poiStart, and seqDetected = 0. -/
def initIceBreakupImg (poiStartDoy : Nat) : BreakupState :=
  ⟨1, poiStartDoy, 1, poiStartDoy, 1, poiStartDoy, 0⟩

/-- ee.Reducer.firstNonNull per pixel: the first unmasked value in
collection order. -/
def firstNonNull {α : Type} (l : List (Option α)) : Option α :=
  (l.filterMap id).head?

/-- detectSpringBreakup (sequenceDetection.py lines 102-132), per pixel:
iterate breakupDate from the initial all-ice state, then mask the result
unless the first present classIce observation equals 1 (ice). -/
def detectSpringBreakup (imgCol : List (Option Obs)) (poiStartDoy : Nat) :
    Option BreakupState :=
  match firstNonNull (imgCol.map (fun o => o.map Obs.classIce)) with
  | some 1 => some (iterateBreakup imgCol (initIceBreakupImg poiStartDoy))
  | _ => none

/-- Specification-side scan (from the spec's words): the first position at
which three consecutive observations of a fully present series are
classified ice, water, water, returned as that triple. -/
def firstIceWaterWater : List Obs → Option (Obs × Obs × Obs)
  | a :: b :: c :: rest =>
    if a.classIce = 1 ∧ b.classIce = 0 ∧ c.classIce = 0 then some (a, b, c)
    else firstIceWaterWater (b :: c :: rest)
  | _ => none

/-- Run of the detector over a list of present (unmasked) observations. -/
def runDetector (ps : List Obs) (s : BreakupState) : BreakupState :=
  ps.foldl (fun st o => breakupDate (some o) st) s

/-- The two pseudo-observations that the carried state can still contribute
to a future ice-water-water match: the lag-1 slot and the current slot. -/
def lag1Obs (s : BreakupState) : Obs := ⟨s.classIce_1, s.t_1⟩

/-- Current-slot pseudo-observation of a carried state. -/
def curObs (s : BreakupState) : Obs := ⟨s.classIce, s.t⟩

/-- States whose seqDetected flag agrees with the ice-water-water test on
their own slots; every state the iteration can produce is of this shape. -/
def goodState (s : BreakupState) : Prop :=
  s.seqDetected = seqCond s.classIce s.classIce_1 s.classIce_2

lemma seqCond_eq_one_iff (c c1 c2 : Nat) :
    seqCond c c1 c2 = 1 ↔ (c = 0 ∧ c1 = 0 ∧ c2 = 1) := by
  unfold seqCond
  split <;> simp_all

lemma breakupDate_goodState (image : Option Obs) (s : BreakupState) :
    goodState (breakupDate image s) := by
  cases image with
  | none => simp [breakupDate, goodState]
  | some o =>
    by_cases h : s.seqDetected = 1 <;> simp [breakupDate, goodState, h]

lemma initIceBreakupImg_goodState (p : Nat) : goodState (initIceBreakupImg p) := by
  simp [goodState, initIceBreakupImg, seqCond]

lemma breakupDate_none_of_goodState (s : BreakupState) (hg : goodState s) :
    breakupDate none s = s := by
  cases s with
  | mk c t c1 t1 c2 t2 sd =>
    simp only [goodState] at hg
    simp [breakupDate, hg]

lemma breakupDate_frozen (image : Option Obs) (s : BreakupState)
    (h1 : s.seqDetected = 1) (hg : goodState s) :
    breakupDate image s = s := by
  cases s with
  | mk c t c1 t1 c2 t2 sd =>
    simp only [goodState] at hg
    cases image with
    | none => simp [breakupDate, hg]
    | some o =>
      simp only at h1
      simp [breakupDate, h1, hg]
      omega

lemma iterateBreakup_goodState (imgCol : List (Option Obs)) (init : BreakupState)
    (hg : goodState init) : goodState (iterateBreakup imgCol init) := by
  induction imgCol generalizing init with
  | nil => exact hg
  | cons o rest ih => exact ih (breakupDate o init) (breakupDate_goodState o init)

lemma iterateBreakup_frozen (imgCol : List (Option Obs)) (s : BreakupState)
    (h1 : s.seqDetected = 1) (hg : goodState s) :
    iterateBreakup imgCol s = s := by
  induction imgCol with
  | nil => rfl
  | cons o rest ih =>
    have hstep : breakupDate o s = s := breakupDate_frozen o s h1 hg
    calc iterateBreakup (o :: rest) s = iterateBreakup rest (breakupDate o s) := rfl
      _ = iterateBreakup rest s := by rw [hstep]
      _ = s := ih

lemma runDetector_frozen (ps : List Obs) (s : BreakupState)
    (h1 : s.seqDetected = 1) (hg : goodState s) :
    runDetector ps s = s := by
  induction ps with
  | nil => rfl
  | cons o rest ih =>
    have hstep : breakupDate (some o) s = s := breakupDate_frozen (some o) s h1 hg
    calc runDetector (o :: rest) s = runDetector rest (breakupDate (some o) s) := rfl
      _ = runDetector rest s := by rw [hstep]
      _ = s := ih

lemma iterateBreakup_append (l1 l2 : List (Option Obs)) (init : BreakupState) :
    iterateBreakup (l1 ++ l2) init = iterateBreakup l2 (iterateBreakup l1 init) := by
  simp [iterateBreakup, List.foldl_append]

/-- Masked observations leave the (reachable) state untouched: iterating
over the full option-valued collection equals running the detector over the
present observations only. -/
lemma iterateBreakup_eq_runDetector (imgCol : List (Option Obs)) (init : BreakupState)
    (hg : goodState init) :
    iterateBreakup imgCol init = runDetector (imgCol.filterMap id) init := by
  induction imgCol generalizing init with
  | nil => rfl
  | cons o rest ih =>
    cases o with
    | none =>
      have h0 : breakupDate none init = init := breakupDate_none_of_goodState init hg
      calc iterateBreakup (none :: rest) init
          = iterateBreakup rest (breakupDate none init) := rfl
        _ = iterateBreakup rest init := by rw [h0]
        _ = runDetector (rest.filterMap id) init := ih init hg
        _ = runDetector ((none :: rest : List (Option Obs)).filterMap id) init := by
            simp [List.filterMap_cons]
    | some o =>
      calc iterateBreakup (some o :: rest) init
          = iterateBreakup rest (breakupDate (some o) init) := rfl
        _ = runDetector (rest.filterMap id) (breakupDate (some o) init) :=
            ih (breakupDate (some o) init) (breakupDate_goodState (some o) init)
        _ = runDetector ((some o :: rest : List (Option Obs)).filterMap id) init := by
            simp [List.filterMap_cons, runDetector]

lemma seqCond_zero_or_one (c c1 c2 : Nat) :
    seqCond c c1 c2 = 0 ∨ seqCond c c1 c2 = 1 := by
  unfold seqCond
  split <;> simp

/-- If a first ice-water-water triple exists in the series obtained by
prepending the lag-1 and current pseudo-observations of a scanning state,
the run of the detector ends frozen exactly on that triple: current slot is
its third element, lag-1 its second, lag-2 its first, with seqDetected 1. -/
lemma runDetector_eq_of_firstIWW_some (ps : List Obs) :
    ∀ (s : BreakupState) (a b c : Obs), s.seqDetected ≠ 1 →
      firstIceWaterWater (lag1Obs s :: curObs s :: ps) = some (a, b, c) →
      runDetector ps s = ⟨c.classIce, c.t, b.classIce, b.t, a.classIce, a.t, 1⟩ := by
  induction ps with
  | nil =>
    intro s a b c hs hf
    simp [firstIceWaterWater] at hf
  | cons o rest ih =>
    intro s a b c hs hf
    have hstep : breakupDate (some o) s =
        ⟨o.classIce, o.t, s.classIce, s.t, s.classIce_1, s.t_1,
          seqCond o.classIce s.classIce s.classIce_1⟩ := by
      simp [breakupDate, hs]
    have hunf : firstIceWaterWater (lag1Obs s :: curObs s :: o :: rest) =
        if (lag1Obs s).classIce = 1 ∧ (curObs s).classIce = 0 ∧ o.classIce = 0 then
          some (lag1Obs s, curObs s, o)
        else firstIceWaterWater (curObs s :: o :: rest) := rfl
    by_cases hcond : (lag1Obs s).classIce = 1 ∧ (curObs s).classIce = 0 ∧ o.classIce = 0
    · rw [hunf, if_pos hcond] at hf
      simp only [Option.some.injEq, Prod.mk.injEq] at hf
      obtain ⟨ha, hb, hc⟩ := hf
      subst ha; subst hb; subst hc
      have hseq1 : seqCond o.classIce s.classIce s.classIce_1 = 1 := by
        rw [seqCond_eq_one_iff]
        exact ⟨hcond.2.2, hcond.2.1, hcond.1⟩
      have h1 : (breakupDate (some o) s).seqDetected = 1 := by
        rw [hstep]
        exact hseq1
      have hfrozen := runDetector_frozen rest (breakupDate (some o) s) h1
        (breakupDate_goodState (some o) s)
      calc runDetector (o :: rest) s = runDetector rest (breakupDate (some o) s) := rfl
        _ = breakupDate (some o) s := hfrozen
        _ = ⟨o.classIce, o.t, (curObs s).classIce, (curObs s).t,
              (lag1Obs s).classIce, (lag1Obs s).t, 1⟩ := by
            rw [hstep, hseq1]
            rfl
    · rw [hunf, if_neg hcond] at hf
      have hns : (breakupDate (some o) s).seqDetected ≠ 1 := by
        rw [hstep]
        intro hx
        rw [seqCond_eq_one_iff] at hx
        exact hcond ⟨hx.2.2, hx.2.1, hx.1⟩
      have hf2 : firstIceWaterWater
          (lag1Obs (breakupDate (some o) s) :: curObs (breakupDate (some o) s) :: rest)
          = some (a, b, c) := by
        rw [hstep]
        exact hf
      calc runDetector (o :: rest) s = runDetector rest (breakupDate (some o) s) := rfl
        _ = ⟨c.classIce, c.t, b.classIce, b.t, a.classIce, a.t, 1⟩ :=
          ih (breakupDate (some o) s) a b c hns hf2

/-- If no ice-water-water triple exists in the padded series, the run of the
detector ends with seqDetected 0. -/
lemma runDetector_seq_of_firstIWW_none (ps : List Obs) :
    ∀ s : BreakupState, s.seqDetected ≠ 1 → goodState s →
      firstIceWaterWater (lag1Obs s :: curObs s :: ps) = none →
      (runDetector ps s).seqDetected = 0 := by
  induction ps with
  | nil =>
    intro s hs hg _
    have hz := seqCond_zero_or_one s.classIce s.classIce_1 s.classIce_2
    have hgood : s.seqDetected = seqCond s.classIce s.classIce_1 s.classIce_2 := hg
    show s.seqDetected = 0
    omega
  | cons o rest ih =>
    intro s hs hg hf
    have hstep : breakupDate (some o) s =
        ⟨o.classIce, o.t, s.classIce, s.t, s.classIce_1, s.t_1,
          seqCond o.classIce s.classIce s.classIce_1⟩ := by
      simp [breakupDate, hs]
    have hunf : firstIceWaterWater (lag1Obs s :: curObs s :: o :: rest) =
        if (lag1Obs s).classIce = 1 ∧ (curObs s).classIce = 0 ∧ o.classIce = 0 then
          some (lag1Obs s, curObs s, o)
        else firstIceWaterWater (curObs s :: o :: rest) := rfl
    by_cases hcond : (lag1Obs s).classIce = 1 ∧ (curObs s).classIce = 0 ∧ o.classIce = 0
    · rw [hunf, if_pos hcond] at hf
      simp at hf
    · rw [hunf, if_neg hcond] at hf
      have hns : (breakupDate (some o) s).seqDetected ≠ 1 := by
        rw [hstep]
        intro hx
        rw [seqCond_eq_one_iff] at hx
        exact hcond ⟨hx.2.2, hx.2.1, hx.1⟩
      have hf2 : firstIceWaterWater
          (lag1Obs (breakupDate (some o) s) :: curObs (breakupDate (some o) s) :: rest)
          = none := by
        rw [hstep]
        exact hf
      calc (runDetector (o :: rest) s).seqDetected
          = (runDetector rest (breakupDate (some o) s)).seqDetected := rfl
        _ = 0 := ih (breakupDate (some o) s) hns (breakupDate_goodState (some o) s) hf2

/-- Skipping a leading pseudo-observation whose successor is not water. -/
lemma firstIWW_cons_of_snd_ne (a b : Obs) (l : List Obs) (hb : b.classIce ≠ 0) :
    firstIceWaterWater (a :: b :: l) = firstIceWaterWater (b :: l) := by
  cases l with
  | nil => rfl
  | cons c r =>
    have hcond : ¬(a.classIce = 1 ∧ b.classIce = 0 ∧ c.classIce = 0) := by
      intro h
      exact hb h.2.1
    have hunf : firstIceWaterWater (a :: b :: c :: r) =
        if a.classIce = 1 ∧ b.classIce = 0 ∧ c.classIce = 0 then some (a, b, c)
        else firstIceWaterWater (b :: c :: r) := rfl
    rw [hunf, if_neg hcond]

/-- When the first present observation is ice, the two synthetic all-ice
pads of the initial state cannot take part in a match, so searching the
padded series equals searching the real present series. -/
lemma firstIWW_pads_init (p : Nat) (h0 : Obs) (tail : List Obs) (hice : h0.classIce = 1) :
    firstIceWaterWater
        (lag1Obs (initIceBreakupImg p) :: curObs (initIceBreakupImg p) :: h0 :: tail)
      = firstIceWaterWater (h0 :: tail) := by
  have h1 : firstIceWaterWater ((⟨1, p⟩ : Obs) :: (⟨1, p⟩ : Obs) :: h0 :: tail)
      = firstIceWaterWater ((⟨1, p⟩ : Obs) :: h0 :: tail) :=
    firstIWW_cons_of_snd_ne _ _ _ (by simp)
  have h2 : firstIceWaterWater ((⟨1, p⟩ : Obs) :: h0 :: tail)
      = firstIceWaterWater (h0 :: tail) :=
    firstIWW_cons_of_snd_ne _ _ _ (by rw [hice]; exact one_ne_zero)
  exact h1.trans h2

/-- A successful first-triple search returns an ice-water-water triple of
three consecutive elements of the searched list. -/
lemma firstIWW_eq_some (l : List Obs) (a b c : Obs)
    (h : firstIceWaterWater l = some (a, b, c)) :
    a.classIce = 1 ∧ b.classIce = 0 ∧ c.classIce = 0
      ∧ ∃ pre suf, l = pre ++ a :: b :: c :: suf := by
  induction l with
  | nil => simp [firstIceWaterWater] at h
  | cons x l' ih =>
    cases l' with
    | nil => simp [firstIceWaterWater] at h
    | cons y l'' =>
      cases l'' with
      | nil => simp [firstIceWaterWater] at h
      | cons z r =>
        have hunf : firstIceWaterWater (x :: y :: z :: r) =
            if x.classIce = 1 ∧ y.classIce = 0 ∧ z.classIce = 0 then some (x, y, z)
            else firstIceWaterWater (y :: z :: r) := rfl
        by_cases hcond : x.classIce = 1 ∧ y.classIce = 0 ∧ z.classIce = 0
        · rw [hunf, if_pos hcond] at h
          simp only [Option.some.injEq, Prod.mk.injEq] at h
          obtain ⟨h1, h2, h3⟩ := h
          subst h1; subst h2; subst h3
          exact ⟨hcond.1, hcond.2.1, hcond.2.2, [], r, rfl⟩
        · rw [hunf, if_neg hcond] at h
          obtain ⟨p1, p2, p3, pre, suf, heq⟩ := ih h
          exact ⟨p1, p2, p3, x :: pre, suf, by rw [heq]; rfl⟩

lemma firstNonNull_map {α β : Type} (f : α → β) (l : List (Option α)) :
    firstNonNull (l.map (Option.map f)) = (firstNonNull l).map f := by
  induction l with
  | nil => rfl
  | cons o rest ih =>
    cases o with
    | none => simp [firstNonNull, List.filterMap_cons]
    | some x => simp [firstNonNull, List.filterMap_cons]

lemma firstNonNull_eq_some {α : Type} (l : List (Option α)) (x : α)
    (h : firstNonNull l = some x) :
    ∃ rest, l.filterMap id = x :: rest := by
  unfold firstNonNull at h
  cases hfm : l.filterMap id with
  | nil => rw [hfm] at h; simp at h
  | cons y r =>
    rw [hfm] at h
    simp only [List.head?_cons, Option.some.injEq] at h
    exact ⟨r, by rw [h]⟩

lemma mem_of_firstNonNull {α : Type} (l : List (Option α)) (x : α)
    (h : firstNonNull l = some x) : some x ∈ l := by
  obtain ⟨rest, hfm⟩ := firstNonNull_eq_some l x h
  have hx : x ∈ l.filterMap id := by
    rw [hfm]
    exact List.mem_cons_self _ _
  rcases List.mem_filterMap.mp hx with ⟨o, ho, hid⟩
  simp only [id] at hid
  rwa [hid] at ho

/-- One observation entering STEP 4 of breakupDetection.py, per pixel: the
classIce band, the fracYear band added by prepImage.addFracYear, the day of
year that prep4ChangeDetection later derives from the same date, and the
dummy property set by dummyWater.addPropDummyYes / addPropDummyNo on images
(the shipped pipeline never sets it; it defaults to false for real data). -/
structure LogObs where
  classIce : Nat
  fracYear : ℚ
  t : Nat
  dummy : Bool
deriving DecidableEq

/-- One observation after fitLogisticRegression: the original bands plus the
fitted, residuals and R2 bands it appends (logisticFilter.py lines 62-123).
The B0/B1 coefficient bands are folded into the fitted value, which the
embedding receives as the abstract fittedFn. -/
structure FitObs where
  classIce : Nat
  fracYear : ℚ
  t : Nat
  dummy : Bool
  fitted : ℚ
  residuals : ℚ
  R2 : ℚ
deriving DecidableEq

/-- Present (unmasked) observations of a per-pixel collection; Earth Engine
reducers (mean, sum, count) skip masked pixels. -/
def presentLog (imgCol : List (Option LogObs)) : List LogObs :=
  imgCol.filterMap id

/-- yflat of addRsquared (logisticFilter.py line 99): mean of the raw y band
over the whole per-pixel series, before any residual filtering.  Division
by zero (empty series) yields 0 here where Earth Engine yields masked. -/
def yflat (imgCol : List (Option LogObs)) : ℚ :=
  ((presentLog imgCol).map (fun i => (i.classIce : ℚ))).sum
    / ((presentLog imgCol).length : ℚ)

/-- Sum of squares regression of addRsquared (logisticFilter.py lines
100-106): sum over present observations of (fitted - yflat)^2. -/
def SSR (fittedFn : ℚ → ℚ) (imgCol : List (Option LogObs)) : ℚ :=
  ((presentLog imgCol).map (fun i => (fittedFn i.fracYear - yflat imgCol) ^ 2)).sum

/-- Total sum of squares of addRsquared (logisticFilter.py lines 107-113):
sum over present observations of (y - yflat)^2. -/
def SSTO (imgCol : List (Option LogObs)) : ℚ :=
  ((presentLog imgCol).map (fun i => ((i.classIce : ℚ) - yflat imgCol) ^ 2)).sum

/-- R2 = SSR / SSTO (logisticFilter.py line 117), one scalar per pixel,
attached to every image of the collection. -/
def R2val (fittedFn : ℚ → ℚ) (imgCol : List (Option LogObs)) : ℚ :=
  SSR fittedFn imgCol / SSTO imgCol

/-- fitLogisticRegression (logisticFilter.py lines 14-126), per pixel, with
the transcendental solve abstracted as fittedFn: every present observation
gains the bands fitted = fittedFn(fracYear), residuals = fitted - y (the raw
classIce band, logisticFilter.py lines 84-89), and the shared per-pixel R2;
masked observations stay masked (addFitted masks fitted wherever y is). -/
def fitLogisticRegression (fittedFn : ℚ → ℚ) (imgCol : List (Option LogObs)) :
    List (Option FitObs) :=
  imgCol.map (fun o => o.map (fun img =>
    ⟨img.classIce, img.fracYear, img.t, img.dummy,
      fittedFn img.fracYear,
      fittedFn img.fracYear - (img.classIce : ℚ),
      R2val fittedFn imgCol⟩))

/-- temporalFilter (logisticFilter.py lines 131-139): updateMask keeps an
observation only when the absolute residual is at most 0.85; a failing
observation has every band masked. -/
def temporalFilter (img : FitObs) : Option FitObs :=
  if |img.residuals| ≤ (0.85 : ℚ) then some img else none

/-- imgCol.map(logisticFilter.temporalFilter) of breakupDetection.py
line 162, per pixel. -/
def applyTemporalFilter (imgCol : List (Option FitObs)) : List (Option FitObs) :=
  imgCol.map (fun o => o.bind temporalFilter)

/-- dummyWater.addPropDummyYes: flag an image as dummy data. -/
def addPropDummyYes (img : LogObs) : LogObs :=
  ⟨img.classIce, img.fracYear, img.t, true⟩

/-- dummyWater.addPropDummyNo: flag an image as real data. -/
def addPropDummyNo (img : LogObs) : LogObs :=
  ⟨img.classIce, img.fracYear, img.t, false⟩

/-- dummyWater.dummyWaterImg restricted to one pixel: a water (classIce 0)
image carrying the given datestamp (fracYear and day of year), present at
the pixel only where the tile and global-water masks applied by
dummyCollection keep it. -/
def dummyWaterImg (stamp : ℚ × Nat) (inMask : Bool) : Option LogObs :=
  if inMask then some ⟨0, stamp.1, stamp.2, false⟩ else none

/-- dummyWater.dummyCollection, per pixel: one water image per datestamp;
the source generates the datestamps evenly spaced from Sept 1 to Oct 1 of
the target year, which the embedding receives as the stamps list. -/
def dummyCollection (stamps : List (ℚ × Nat)) (inMask : Bool) : List (Option LogObs) :=
  stamps.map (fun st => dummyWaterImg st inMask)

/-- nDummy of dummyWater.addDummyData line 77: round(size / 10), the number
of dummy images, about 10 percent of the true observations. -/
def nDummy (imgCol : List (Option LogObs)) : ℤ :=
  round ((imgCol.length : ℚ) / 10)

/-- dummyWater.addDummyData lines 70-87, per pixel: flag real data with
dummy = NO, flag the generated water images with dummy = YES, and merge
(append) them after the real collection. -/
def addDummyData (imgCol : List (Option LogObs)) (stamps : List (ℚ × Nat))
    (inMask : Bool) : List (Option LogObs) :=
  imgCol.map (Option.map addPropDummyNo)
    ++ (dummyCollection stamps inMask).map (Option.map addPropDummyYes)

/-- Earth Engine toUint16 on a signed value, as an explicit wrap into
2 ^ 16 residues. -/
def toUint16 (v : ℤ) : ℕ :=
  (v % 65536).toNat

/-- nPixels of breakupDetection.py lines 168-174 (and 186-193): merge one
everywhere-present zero image into the classIce stack, count unmasked
values per pixel, subtract 1, cast to uint16. -/
def nPixelsBand (classCol : List (Option Nat)) : ℕ :=
  (((classCol ++ [some 0]).countP Option.isSome) - 1) % 65536

/-- rSquared of breakupDetection.py lines 177-182: first non-null R2 value
of the filtered collection, times 100, rounded, cast to uint16. -/
def rSquaredBand (imgCol : List (Option FitObs)) : Option ℕ :=
  (firstNonNull (imgCol.map (fun o => o.map FitObs.R2))).map
    (fun r => toUint16 (round (r * 100)))

/-- prep4ChangeDetection on a filtered observation: keep classIce and the
day-of-year t band. -/
def obsOfFit (img : FitObs) : Obs := ⟨img.classIce, img.t⟩

/-- prep4ChangeDetection on an unfiltered observation: keep classIce and
the day-of-year t band. -/
def obsOfLog (img : LogObs) : Obs := ⟨img.classIce, img.t⟩

/-- The per-pixel record of the exported breakup image (breakupDetection.py
lines 40-45 and 212-227): bands breakupDate, R2, nPixels, breakupGap and
the year property. -/
structure BreakupResult where
  breakupDate : Option ℕ
  R2 : Option ℕ
  nPixels : ℕ
  breakupGap : Option ℕ
  year : ℤ
deriving DecidableEq

/-- Band assembly of breakupDetection.py lines 212-227: breakupDate is the
t_1 band of iceBreakupImg masked unless seqDetected equals 1; breakupGap is
t_1 - t_2 cast to uint16 under the same mask; the R2 and nPixels bands and
the year property are attached as they come. -/
def assembleBreakupBands (st : Option BreakupState) (r2 : Option ℕ) (nP : ℕ)
    (y : ℤ) : BreakupResult :=
  ⟨st.bind (fun s => if s.seqDetected = 1 then some s.t_1 else none),
    r2, nP,
    st.bind (fun s =>
      if s.seqDetected = 1 then some (toUint16 ((s.t_1 : ℤ) - (s.t_2 : ℤ))) else none),
    y⟩

/-- Steps 4 and 5 of breakupDetection.py (lines 140-227), per pixel.  When
logFilter holds, the logistic filter bands are fitted, high-residual
observations are masked out, nPixels and rSquared are reduced from the
filtered collection, and sequence detection runs on it; otherwise the
filter is skipped entirely, nPixels comes from the unfiltered collection,
the R2 band is an empty (fully masked) image, and sequence detection runs
on the unfiltered collection. -/
def breakupDetection (logFilter : Bool) (fittedFn : ℚ → ℚ)
    (imgCol : List (Option LogObs)) (poiStartDoy : ℕ) (year : ℤ) : BreakupResult :=
  if logFilter then
    let fCol := applyTemporalFilter (fitLogisticRegression fittedFn imgCol)
    assembleBreakupBands
      (detectSpringBreakup (fCol.map (fun o => o.map obsOfFit)) poiStartDoy)
      (rSquaredBand fCol)
      (nPixelsBand (fCol.map (fun o => o.map FitObs.classIce)))
      year
  else
    assembleBreakupBands
      (detectSpringBreakup (imgCol.map (fun o => o.map obsOfLog)) poiStartDoy)
      none
      (nPixelsBand (imgCol.map (fun o => o.map LogObs.classIce)))
      year

/-- Raster-wide iteration: the carried accumulator image maps every pixel
to its own BreakupState, and each step of breakupDate is pixel-wise band
arithmetic. -/
def rasterIterate (Pix : Type) (imgs : List (Pix → Option Obs))
    (init : Pix → BreakupState) : Pix → BreakupState :=
  imgs.foldl (fun st img => fun q => breakupDate (img q) (st q)) init

/-- A detection that survives the first-observation-is-ice mask always
comes from a real ice-water-water triple of consecutive present
observations, and the final state records exactly that triple. -/
lemma detect_detected_triple (imgCol : List (Option Obs)) (p : ℕ) (s : BreakupState)
    (hdet : detectSpringBreakup imgCol p = some s) (hseq : s.seqDetected = 1) :
    ∃ a b c pre suf,
      imgCol.filterMap id = pre ++ a :: b :: c :: suf
      ∧ a.classIce = 1 ∧ b.classIce = 0 ∧ c.classIce = 0
      ∧ s = ⟨c.classIce, c.t, b.classIce, b.t, a.classIce, a.t, 1⟩ := by
  cases hfn : firstNonNull (imgCol.map (fun o => o.map Obs.classIce)) with
  | none =>
    unfold detectSpringBreakup at hdet
    rw [hfn] at hdet
    exact Option.noConfusion hdet
  | some c0 =>
    unfold detectSpringBreakup at hdet
    rw [hfn] at hdet
    cases c0 with
    | zero => exact Option.noConfusion hdet
    | succ k =>
      cases k with
      | succ k2 => exact Option.noConfusion hdet
      | zero =>
        have hs : iterateBreakup imgCol (initIceBreakupImg p) = s := Option.some.inj hdet
        have hmap : (firstNonNull imgCol).map Obs.classIce = some 1 :=
          (firstNonNull_map Obs.classIce imgCol).symm.trans hfn
        cases hh : firstNonNull imgCol with
        | none => rw [hh] at hmap; simp at hmap
        | some h0 =>
          rw [hh] at hmap
          simp only [Option.map_some', Option.some.injEq] at hmap
          obtain ⟨rest, hser⟩ := firstNonNull_eq_some imgCol h0 hh
          have hred : iterateBreakup imgCol (initIceBreakupImg p)
              = runDetector (h0 :: rest) (initIceBreakupImg p) := by
            rw [iterateBreakup_eq_runDetector imgCol _ (initIceBreakupImg_goodState p), hser]
          have hns : (initIceBreakupImg p).seqDetected ≠ 1 := by
            simp [initIceBreakupImg]
          cases hfw : firstIceWaterWater (h0 :: rest) with
          | none =>
            have h0seq := runDetector_seq_of_firstIWW_none (h0 :: rest) (initIceBreakupImg p)
              hns (initIceBreakupImg_goodState p)
              (by rw [firstIWW_pads_init p h0 rest hmap]; exact hfw)
            rw [hred] at hs
            rw [hs] at h0seq
            omega
          | some trip =>
            obtain ⟨a, b, c⟩ := trip
            have hrun := runDetector_eq_of_firstIWW_some (h0 :: rest) (initIceBreakupImg p)
              a b c hns (by rw [firstIWW_pads_init p h0 rest hmap]; exact hfw)
            obtain ⟨pa, pb, pc, pre, suf, heq⟩ := firstIWW_eq_some (h0 :: rest) a b c hfw
            refine ⟨a, b, c, pre, suf, ?_, pa, pb, pc, ?_⟩
            · rw [hser, heq]
            · rw [← hs, hred, hrun]

/-- Adjacent elements of a chain are related wherever they sit. -/
lemma rel_of_chain_append {α : Type} (R : α → α → Prop) (a b : α) :
    ∀ (pre suf : List α), List.Chain' R (pre ++ a :: b :: suf) → R a b := by
  intro pre
  induction pre with
  | nil =>
    intro suf hc
    exact (List.chain'_cons.mp hc).1
  | cons x pre ih =>
    intro suf hc
    exact ih suf hc.tail

/-- C1 (amended): provided the chronologically-first present observation of
the per-pixel series is classified ICE, the sequence detector sets
seqDetected = 1 exactly at the first position where three consecutive
present observations are classified ICE, WATER, WATER, records t_1 as the
timestamp of the middle (first WATER) observation and t_2 as the timestamp
of the antecedent ICE observation, and masked observations cause no slot
shift.  (Without the first-present-is-ice hypothesis the claim fails: the
synthetic all-ice initial state can complete a match, see the
counterexample.) -/
theorem breakupDate_detects_first_triple
    (imgCol : List (Option Obs)) (p : ℕ) (h0 : Obs) (rest : List Obs)
    (hser : imgCol.filterMap id = h0 :: rest) (hice : h0.classIce = 1) :
    (∀ a b c, firstIceWaterWater (h0 :: rest) = some (a, b, c) →
        iterateBreakup imgCol (initIceBreakupImg p)
          = ⟨c.classIce, c.t, b.classIce, b.t, a.classIce, a.t, 1⟩)
    ∧ (firstIceWaterWater (h0 :: rest) = none →
        (iterateBreakup imgCol (initIceBreakupImg p)).seqDetected = 0)
    ∧ (∀ n, (runDetector ((h0 :: rest).take n) (initIceBreakupImg p)).seqDetected = 1
          ↔ (firstIceWaterWater ((h0 :: rest).take n)).isSome) := by
  have hred : iterateBreakup imgCol (initIceBreakupImg p)
      = runDetector (h0 :: rest) (initIceBreakupImg p) := by
    rw [iterateBreakup_eq_runDetector imgCol _ (initIceBreakupImg_goodState p), hser]
  have hns : (initIceBreakupImg p).seqDetected ≠ 1 := by
    simp [initIceBreakupImg]
  refine ⟨?_, ?_, ?_⟩
  · intro a b c hf
    rw [hred]
    exact runDetector_eq_of_firstIWW_some (h0 :: rest) (initIceBreakupImg p) a b c hns
      (by rw [firstIWW_pads_init p h0 rest hice]; exact hf)
  · intro hf
    rw [hred]
    exact runDetector_seq_of_firstIWW_none (h0 :: rest) (initIceBreakupImg p) hns
      (initIceBreakupImg_goodState p)
      (by rw [firstIWW_pads_init p h0 rest hice]; exact hf)
  · intro n
    cases n with
    | zero => simp [runDetector, initIceBreakupImg, firstIceWaterWater]
    | succ m =>
      have htake : (h0 :: rest).take (m + 1) = h0 :: rest.take m := rfl
      rw [htake]
      constructor
      · intro h1
        by_contra hnone
        have hnone2 : firstIceWaterWater (h0 :: rest.take m) = none := by
          cases hx : firstIceWaterWater (h0 :: rest.take m) with
          | none => rfl
          | some v => rw [hx] at hnone; simp at hnone
        have hz := runDetector_seq_of_firstIWW_none (h0 :: rest.take m)
          (initIceBreakupImg p) hns (initIceBreakupImg_goodState p)
          (by rw [firstIWW_pads_init p h0 (rest.take m) hice]; exact hnone2)
        omega
      · intro hsome
        obtain ⟨⟨a, b, c⟩, hv⟩ := Option.isSome_iff_exists.mp hsome
        have hrun := runDetector_eq_of_firstIWW_some (h0 :: rest.take m)
          (initIceBreakupImg p) a b c hns
          (by rw [firstIWW_pads_init p h0 (rest.take m) hice]; exact hv)
        rw [hrun]

/-- Witness for C1: scenario A of the spec.  Series
(50, ICE), (90, ICE), (100, WATER), (105, WATER): detection fires at the
triple (90, 100, 105) with t_1 = 100, t_2 = 90. -/
theorem breakupDate_detects_first_triple_witness :
    iterateBreakup
        [some ⟨1, 50⟩, some ⟨1, 90⟩, some ⟨0, 100⟩, some ⟨0, 105⟩]
        (initIceBreakupImg 46)
      = ⟨0, 105, 0, 100, 1, 90, 1⟩ :=
  (breakupDate_detects_first_triple
      [some ⟨1, 50⟩, some ⟨1, 90⟩, some ⟨0, 100⟩, some ⟨0, 105⟩] 46
      ⟨1, 50⟩ [⟨1, 90⟩, ⟨0, 100⟩, ⟨0, 105⟩] (by decide) (by decide)).1
    ⟨1, 90⟩ ⟨0, 100⟩ ⟨0, 105⟩ (by decide)

/-- Counterexample for C1 as frozen: a series of two WATER observations and
no ICE observation contains no three consecutive present observations
classified ICE, WATER, WATER, yet the detector sets seqDetected = 1,
completing the match with the synthetic initial all-ice state and recording
t_2 = poiStart (here 46), which is no observation timestamp at all. -/
theorem breakupDate_detects_without_ice_triple :
    firstIceWaterWater
        (([some ⟨0, 50⟩, some ⟨0, 60⟩] : List (Option Obs)).filterMap id) = none
    ∧ (iterateBreakup [some ⟨0, 50⟩, some ⟨0, 60⟩]
        (initIceBreakupImg 46)).seqDetected = 1
    ∧ (iterateBreakup [some ⟨0, 50⟩, some ⟨0, 60⟩] (initIceBreakupImg 46)).t_2 = 46 := by
  decide

/-- C4: once seqDetected flips to 1 at a pixel, every further observation
leaves the whole per-pixel transition state unchanged (current, lag1 and
lag2 slots and the flag), while the raster-wide iteration is pixel-wise:
the state of any pixel is obtained by running that pixel's own observation
sequence through its own state machine, independently of all others. -/
theorem transition_state_frozen_once_detected :
    (∀ (imgCol rest : List (Option Obs)) (p : ℕ),
        (iterateBreakup imgCol (initIceBreakupImg p)).seqDetected = 1 →
        iterateBreakup (imgCol ++ rest) (initIceBreakupImg p)
          = iterateBreakup imgCol (initIceBreakupImg p))
    ∧ (∀ (Pix : Type) (imgs : List (Pix → Option Obs)) (init : Pix → BreakupState)
        (q : Pix),
        rasterIterate Pix imgs init q
          = iterateBreakup (imgs.map (fun img => img q)) (init q)) := by
  constructor
  · intro imgCol rest p h1
    rw [iterateBreakup_append]
    exact iterateBreakup_frozen rest _ h1
      (iterateBreakup_goodState imgCol _ (initIceBreakupImg_goodState p))
  · intro Pix imgs init q
    induction imgs generalizing init with
    | nil => rfl
    | cons i is ih =>
      calc rasterIterate Pix (i :: is) init q
          = rasterIterate Pix is (fun r => breakupDate (i r) (init r)) q := rfl
        _ = iterateBreakup (is.map (fun img => img q)) (breakupDate (i q) (init q)) :=
            ih (fun r => breakupDate (i r) (init r))
        _ = iterateBreakup ((i :: is).map (fun img => img q)) (init q) := rfl

/-- Witness for C4: after the detection fired on (50, ICE), (100, WATER),
(105, WATER), a later (200, ICE) observation leaves the state unchanged. -/
theorem transition_state_frozen_once_detected_witness :
    iterateBreakup
        ([some ⟨1, 50⟩, some ⟨0, 100⟩, some ⟨0, 105⟩] ++ [some ⟨1, 200⟩])
        (initIceBreakupImg 46)
      = iterateBreakup [some ⟨1, 50⟩, some ⟨0, 100⟩, some ⟨0, 105⟩]
          (initIceBreakupImg 46) :=
  transition_state_frozen_once_detected.1
    [some ⟨1, 50⟩, some ⟨0, 100⟩, some ⟨0, 105⟩] [some ⟨1, 200⟩] 46 (by decide)

/-- C10: a pixel that reaches the final output unmasked with
seqDetected = 1 processed at least three present observations, and its
recorded t_2 is the timestamp of a real present observation classified ICE
(never the synthetic initial all-ice state, which can only complete a match
when the first present observation is WATER, and such pixels are masked by
the first-observation-is-ice check). -/
theorem detected_t2_from_real_ice_obs
    (imgCol : List (Option Obs)) (p : ℕ) (s : BreakupState)
    (hdet : detectSpringBreakup imgCol p = some s)
    (hseq : s.seqDetected = 1) :
    3 ≤ (imgCol.filterMap id).length
    ∧ ∃ a ∈ imgCol.filterMap id, a.classIce = 1 ∧ s.t_2 = a.t := by
  obtain ⟨a, b, c, pre, suf, heq, pa, pb, pc, hsval⟩ :=
    detect_detected_triple imgCol p s hdet hseq
  constructor
  · rw [heq]
    simp [List.length_append]
    omega
  · refine ⟨a, ?_, pa, ?_⟩
    · rw [heq]
      exact List.mem_append_right _ (List.mem_cons_self _ _)
    · rw [hsval]

/-- Witness for C10 at scenario A: three or more present observations, and
the recorded t_2 = 90 is the timestamp of the real ICE observation. -/
theorem detected_t2_from_real_ice_obs_witness :
    3 ≤ (([some ⟨1, 50⟩, some ⟨1, 90⟩, some ⟨0, 100⟩, some ⟨0, 105⟩] :
        List (Option Obs)).filterMap id).length
    ∧ ∃ a ∈ ([some ⟨1, 50⟩, some ⟨1, 90⟩, some ⟨0, 100⟩, some ⟨0, 105⟩] :
        List (Option Obs)).filterMap id,
        a.classIce = 1 ∧ (⟨0, 105, 0, 100, 1, 90, 1⟩ : BreakupState).t_2 = a.t :=
  detected_t2_from_real_ice_obs
    [some ⟨1, 50⟩, some ⟨1, 90⟩, some ⟨0, 100⟩, some ⟨0, 105⟩] 46
    ⟨0, 105, 0, 100, 1, 90, 1⟩ (by decide) (by decide)

/-- C7 (amended): for a chronologically sorted series of day-of-year
observations (timestamps nondecreasing, each at most 366), an unmasked
detection satisfies t_2 LESS-OR-EQUAL t_1 (equality occurs when two sensors
observe the same day, so the strict inequality of the claim fails, see the
counterexample), and the breakupGap band equals t_1 - t_2 exactly: the
uint16 cast never wraps. -/
theorem detected_t2_le_t1_gap_no_wrap
    (imgCol : List (Option Obs)) (p : ℕ) (s : BreakupState)
    (hdet : detectSpringBreakup imgCol p = some s)
    (hseq : s.seqDetected = 1)
    (hsort : List.Chain' (fun u v : Obs => u.t ≤ v.t) (imgCol.filterMap id))
    (hbound : ∀ o ∈ imgCol.filterMap id, o.t ≤ 366) :
    s.t_2 ≤ s.t_1
    ∧ toUint16 ((s.t_1 : ℤ) - (s.t_2 : ℤ)) = s.t_1 - s.t_2
    ∧ (∀ (r2 : Option ℕ) (nP : ℕ) (y : ℤ),
        (assembleBreakupBands (some s) r2 nP y).breakupGap = some (s.t_1 - s.t_2)) := by
  obtain ⟨a, b, c, pre, suf, heq, pa, pb, pc, hsval⟩ :=
    detect_detected_triple imgCol p s hdet hseq
  have hab : a.t ≤ b.t := by
    apply rel_of_chain_append (fun u v : Obs => u.t ≤ v.t) a b pre (c :: suf)
    rw [← heq]
    exact hsort
  have hbmem : b ∈ imgCol.filterMap id := by
    rw [heq]
    exact List.mem_append_right _ (List.mem_cons_of_mem _ (List.mem_cons_self _ _))
  have hb366 : b.t ≤ 366 := hbound b hbmem
  have ht2 : s.t_2 = a.t := by rw [hsval]
  have ht1 : s.t_1 = b.t := by rw [hsval]
  have hle : s.t_2 ≤ s.t_1 := by rw [ht1, ht2]; exact hab
  have h16 : toUint16 ((s.t_1 : ℤ) - (s.t_2 : ℤ)) = s.t_1 - s.t_2 := by
    have h1 : s.t_1 ≤ 366 := by rw [ht1]; exact hb366
    unfold toUint16
    omega
  refine ⟨hle, h16, ?_⟩
  intro r2 nP y
  simp [assembleBreakupBands, hseq, h16]

/-- Witness for C7 at scenario A: the recorded state has t_2 = 90,
t_1 = 100, and the cast gap is exactly 10. -/
theorem detected_t2_le_t1_gap_no_wrap_witness :
    (⟨0, 105, 0, 100, 1, 90, 1⟩ : BreakupState).t_2
        ≤ (⟨0, 105, 0, 100, 1, 90, 1⟩ : BreakupState).t_1
    ∧ toUint16 (((⟨0, 105, 0, 100, 1, 90, 1⟩ : BreakupState).t_1 : ℤ)
          - ((⟨0, 105, 0, 100, 1, 90, 1⟩ : BreakupState).t_2 : ℤ))
        = (⟨0, 105, 0, 100, 1, 90, 1⟩ : BreakupState).t_1
          - (⟨0, 105, 0, 100, 1, 90, 1⟩ : BreakupState).t_2 := by
  have h := detected_t2_le_t1_gap_no_wrap
    [some ⟨1, 50⟩, some ⟨1, 90⟩, some ⟨0, 100⟩, some ⟨0, 105⟩] 46
    ⟨0, 105, 0, 100, 1, 90, 1⟩ (by decide) (by decide)
    (by
      show List.Chain' (fun u v : Obs => u.t ≤ v.t)
        [⟨1, 50⟩, ⟨1, 90⟩, ⟨0, 100⟩, ⟨0, 105⟩]
      norm_num [List.chain'_cons, List.chain'_singleton])
    (by decide)
  exact ⟨h.1, h.2.1⟩

/-- Counterexample for C7 as frozen: two sensors observe the same day of
year 90 (ICE then WATER), followed by WATER on day 91.  The pixel passes
the first-observation-is-ice mask, detection fires with t_1 = t_2 = 90, so
t_2 is NOT strictly less than t_1 and breakupGap is 0, not strictly
positive. -/
theorem same_day_obs_gap_zero :
    detectSpringBreakup [some ⟨1, 90⟩, some ⟨0, 90⟩, some ⟨0, 91⟩] 46
      = some ⟨0, 91, 0, 90, 1, 90, 1⟩
    ∧ (assembleBreakupBands
        (detectSpringBreakup [some ⟨1, 90⟩, some ⟨0, 90⟩, some ⟨0, 91⟩] 46)
        none 3 2017).breakupGap = some 0 := by
  decide

/-- C3 (amended): when the chronologically-first present observation is
WATER, the entire iceBreakupImg (every band of the sequence-detection
image) is masked at the pixel, and consequently the breakupDate and
breakupGap bands of the exported record are masked, even when a valid
ice-water-water pattern occurs later in the series.  (The nPixels and R2
bands are reduced upstream of this mask and stay present, so the claim's
"all bands of the breakup image" holds for iceBreakupImg but not for the
4-band export, see the counterexample.) -/
theorem detectSpringBreakup_masks_first_water
    (imgCol : List (Option Obs)) (p : ℕ)
    (hw : firstNonNull (imgCol.map (fun o => o.map Obs.classIce)) = some 0) :
    detectSpringBreakup imgCol p = none
    ∧ ∀ (r2 : Option ℕ) (nP : ℕ) (y : ℤ),
        assembleBreakupBands (detectSpringBreakup imgCol p) r2 nP y
          = ⟨none, r2, nP, none, y⟩ := by
  have hd : detectSpringBreakup imgCol p = none := by
    unfold detectSpringBreakup
    rw [hw]
  refine ⟨hd, ?_⟩
  intro r2 nP y
  rw [hd]
  rfl

/-- Witness for C3 at scenario B: the series
(50, WATER), (90, ICE), (100, WATER), (105, WATER) has a valid
ice-water-water pattern at (90, 100, 105), yet the sequence-detection
image is fully masked because the first present observation is WATER. -/
theorem detectSpringBreakup_masks_first_water_witness :
    detectSpringBreakup
        [some ⟨0, 50⟩, some ⟨1, 90⟩, some ⟨0, 100⟩, some ⟨0, 105⟩] 46 = none :=
  (detectSpringBreakup_masks_first_water
      [some ⟨0, 50⟩, some ⟨1, 90⟩, some ⟨0, 100⟩, some ⟨0, 105⟩] 46 (by decide)).1

/-- Counterexample for C3 as frozen (scenario B through the full per-pixel
pipeline, robust filter on with a fit of one half everywhere): breakupDate
and breakupGap are masked, but the exported record is NOT fully masked at
the pixel: nPixels = 4 and R2 = 33 percent are present, because those bands
are reduced before the first-observation-is-ice mask is applied. -/
theorem first_water_pixel_keeps_count_bands :
    (breakupDetection true (fun _ => (1 : ℚ)/2)
        [some ⟨0, 1/10, 50, false⟩, some ⟨1, 2/10, 90, false⟩,
          some ⟨0, 3/10, 100, false⟩, some ⟨0, 4/10, 105, false⟩] 46 2017).breakupDate
      = none
    ∧ (breakupDetection true (fun _ => (1 : ℚ)/2)
        [some ⟨0, 1/10, 50, false⟩, some ⟨1, 2/10, 90, false⟩,
          some ⟨0, 3/10, 100, false⟩, some ⟨0, 4/10, 105, false⟩] 46 2017).breakupGap
      = none
    ∧ (breakupDetection true (fun _ => (1 : ℚ)/2)
        [some ⟨0, 1/10, 50, false⟩, some ⟨1, 2/10, 90, false⟩,
          some ⟨0, 3/10, 100, false⟩, some ⟨0, 4/10, 105, false⟩] 46 2017).nPixels
      = 4
    ∧ (breakupDetection true (fun _ => (1 : ℚ)/2)
        [some ⟨0, 1/10, 50, false⟩, some ⟨1, 2/10, 90, false⟩,
          some ⟨0, 3/10, 100, false⟩, some ⟨0, 4/10, 105, false⟩] 46 2017).R2
      = some 33 := by
  have hfit : fitLogisticRegression (fun _ => (1 : ℚ)/2)
      [some ⟨0, 1/10, 50, false⟩, some ⟨1, 2/10, 90, false⟩,
        some ⟨0, 3/10, 100, false⟩, some ⟨0, 4/10, 105, false⟩]
      = [some ⟨0, 1/10, 50, false, 1/2, 1/2, 1/3⟩,
          some ⟨1, 2/10, 90, false, 1/2, -1/2, 1/3⟩,
          some ⟨0, 3/10, 100, false, 1/2, 1/2, 1/3⟩,
          some ⟨0, 4/10, 105, false, 1/2, 1/2, 1/3⟩] := by
    norm_num [fitLogisticRegression, R2val, SSR, SSTO, yflat, presentLog,
      List.filterMap_cons, List.filterMap_nil, id_eq]
  have hfil : applyTemporalFilter
      [some ⟨0, (1:ℚ)/10, 50, false, 1/2, 1/2, 1/3⟩,
        some ⟨1, 2/10, 90, false, 1/2, -1/2, 1/3⟩,
        some ⟨0, 3/10, 100, false, 1/2, 1/2, 1/3⟩,
        some ⟨0, 4/10, 105, false, 1/2, 1/2, 1/3⟩]
      = [some ⟨0, 1/10, 50, false, 1/2, 1/2, 1/3⟩,
          some ⟨1, 2/10, 90, false, 1/2, -1/2, 1/3⟩,
          some ⟨0, 3/10, 100, false, 1/2, 1/2, 1/3⟩,
          some ⟨0, 4/10, 105, false, 1/2, 1/2, 1/3⟩] := by
    norm_num [applyTemporalFilter, temporalFilter, abs_le]
  simp only [breakupDetection, if_true, hfit, hfil]
  norm_num [assembleBreakupBands, detectSpringBreakup, firstNonNull, nPixelsBand,
    rSquaredBand, toUint16, round_eq, obsOfFit, List.filterMap_cons, List.filterMap_nil,
    id_eq, Int.toNat_ofNat]
  decide

/-- Every image of the fitted collection carries fitted = fittedFn(x),
residuals = fitted - y, and the shared per-pixel R2. -/
lemma mem_fitLogisticRegression (fittedFn : ℚ → ℚ) (imgCol : List (Option LogObs))
    (img : FitObs) (h : some img ∈ fitLogisticRegression fittedFn imgCol) :
    img.fitted = fittedFn img.fracYear
    ∧ img.residuals = img.fitted - (img.classIce : ℚ)
    ∧ img.R2 = R2val fittedFn imgCol := by
  rcases List.mem_map.mp h with ⟨o, ho, hmap⟩
  cases o with
  | none => simp at hmap
  | some lg =>
    simp only [Option.map_some', Option.some.injEq] at hmap
    rw [← hmap]
    exact ⟨rfl, rfl, rfl⟩

/-- The residual filter only removes images; survivors come unchanged from
the fitted collection. -/
lemma mem_of_mem_applyTemporalFilter (l : List (Option FitObs)) (img : FitObs)
    (h : some img ∈ applyTemporalFilter l) : some img ∈ l := by
  rcases List.mem_map.mp h with ⟨o, ho, hbind⟩
  rcases Option.bind_eq_some.mp hbind with ⟨i0, hi0, htf⟩
  unfold temporalFilter at htf
  by_cases hc : |i0.residuals| ≤ (0.85 : ℚ)
  · rw [if_pos hc] at htf
    rw [hi0, Option.some.inj htf] at ho
    exact ho
  · rw [if_neg hc] at htf
    exact Option.noConfusion htf

/-- C5: every observation that survives the RobustTemporalFilter satisfies
the residual bound: its residuals band equals fitted minus the raw observed
0/1 classification, and its absolute value is at most 0.85; conversely
every fitted observation whose absolute residual exceeds 0.85 is masked out
at its position in the collection. -/
theorem temporalFilter_residual_bound (fittedFn : ℚ → ℚ)
    (imgCol : List (Option LogObs)) :
    (∀ img : FitObs,
        some img ∈ applyTemporalFilter (fitLogisticRegression fittedFn imgCol) →
        img.residuals = img.fitted - (img.classIce : ℚ)
          ∧ |img.fitted - (img.classIce : ℚ)| ≤ (0.85 : ℚ))
    ∧ (∀ (j : ℕ) (img : FitObs),
        (fitLogisticRegression fittedFn imgCol)[j]? = some (some img) →
        (0.85 : ℚ) < |img.residuals| →
        (applyTemporalFilter (fitLogisticRegression fittedFn imgCol))[j]? = some none) := by
  constructor
  · intro img hmem
    rcases List.mem_map.mp hmem with ⟨o, ho, hbind⟩
    rcases Option.bind_eq_some.mp hbind with ⟨i0, hi0, htf⟩
    rw [hi0] at ho
    unfold temporalFilter at htf
    by_cases hc : |i0.residuals| ≤ (0.85 : ℚ)
    · rw [if_pos hc] at htf
      have hieq : i0 = img := Option.some.inj htf
      subst hieq
      obtain ⟨_, hr, _⟩ := mem_fitLogisticRegression fittedFn imgCol i0 ho
      refine ⟨hr, ?_⟩
      rw [← hr]
      exact hc
    · rw [if_neg hc] at htf
      exact Option.noConfusion htf
  · intro j img hj hgt
    have happ : (applyTemporalFilter (fitLogisticRegression fittedFn imgCol))[j]?
        = ((fitLogisticRegression fittedFn imgCol)[j]?).map
            (fun o => o.bind temporalFilter) := by
      simp [applyTemporalFilter, List.getElem?_map]
    rw [happ, hj]
    simp only [Option.map_some']
    show some (temporalFilter img) = some none
    unfold temporalFilter
    rw [if_neg (not_le.mpr hgt)]

/-- Witness for C5: with a fitted value of 9/10 everywhere, the ICE
observation (y = 1, residual -1/10) survives and satisfies the bound, while
the WATER observation (y = 0, residual 9/10 greater than 0.85) is masked at
its position. -/
theorem temporalFilter_residual_bound_witness :
    ((⟨1, 1/5, 50, false, 9/10, -1/10, 16/25⟩ : FitObs).residuals
        = (⟨1, 1/5, 50, false, 9/10, -1/10, 16/25⟩ : FitObs).fitted
          - (((⟨1, 1/5, 50, false, 9/10, -1/10, 16/25⟩ : FitObs).classIce : ℕ) : ℚ)
      ∧ |(⟨1, 1/5, 50, false, 9/10, -1/10, 16/25⟩ : FitObs).fitted
          - (((⟨1, 1/5, 50, false, 9/10, -1/10, 16/25⟩ : FitObs).classIce : ℕ) : ℚ)|
        ≤ (0.85 : ℚ))
    ∧ (applyTemporalFilter (fitLogisticRegression (fun _ => (9 : ℚ)/10)
        [some ⟨1, 1/5, 50, false⟩, some ⟨0, 1/2, 100, false⟩]))[1]? = some none := by
  have hfit : fitLogisticRegression (fun _ => (9 : ℚ)/10)
      [some ⟨1, 1/5, 50, false⟩, some ⟨0, 1/2, 100, false⟩]
      = [some ⟨1, 1/5, 50, false, 9/10, -1/10, 16/25⟩,
          some ⟨0, 1/2, 100, false, 9/10, 9/10, 16/25⟩] := by
    norm_num [fitLogisticRegression, R2val, SSR, SSTO, yflat, presentLog,
      List.filterMap_cons, List.filterMap_nil, id_eq]
  have hfil : applyTemporalFilter
      [some ⟨1, (1:ℚ)/5, 50, false, 9/10, -1/10, 16/25⟩,
        some ⟨0, 1/2, 100, false, 9/10, 9/10, 16/25⟩]
      = [some ⟨1, 1/5, 50, false, 9/10, -1/10, 16/25⟩, none] := by
    norm_num [applyTemporalFilter, temporalFilter, abs_le]
  have h := temporalFilter_residual_bound (fun _ => (9 : ℚ)/10)
    [some ⟨1, 1/5, 50, false⟩, some ⟨0, 1/2, 100, false⟩]
  refine ⟨h.1 ⟨1, 1/5, 50, false, 9/10, -1/10, 16/25⟩ ?_,
    h.2 1 ⟨0, 1/2, 100, false, 9/10, 9/10, 16/25⟩ ?_ ?_⟩
  · rw [hfit, hfil]
    exact List.mem_cons_self _ _
  · rw [hfit]
    rfl
  · show (0.85 : ℚ) < |(9 : ℚ)/10|
    norm_num [lt_abs]

/-- C6: the per-pixel R2 equals SSR / SSTO, with SSR the sum of squared
deviations of the fitted values from yflat, SSTO the sum of squared
deviations of the observed y from yflat, and yflat the mean of the observed
y over the whole series computed before the residual filter runs; the value
attached to every image of the fitted collection is that same scalar, every
survivor of the residual filter keeps it, and the reported (firstNonNull)
R2 band equals it whenever any observation survives the filter. -/
theorem addRsquared_classical_decomposition (fittedFn : ℚ → ℚ)
    (imgCol : List (Option LogObs)) :
    yflat imgCol
        = ((imgCol.filterMap id).map (fun i => (i.classIce : ℚ))).sum
          / ((imgCol.filterMap id).length : ℚ)
    ∧ (∀ img : FitObs, some img ∈ fitLogisticRegression fittedFn imgCol →
        img.R2 = SSR fittedFn imgCol / SSTO imgCol)
    ∧ (∀ img : FitObs,
        some img ∈ applyTemporalFilter (fitLogisticRegression fittedFn imgCol) →
        img.R2 = SSR fittedFn imgCol / SSTO imgCol)
    ∧ (∀ img : FitObs,
        firstNonNull (applyTemporalFilter (fitLogisticRegression fittedFn imgCol))
            = some img →
        rSquaredBand (applyTemporalFilter (fitLogisticRegression fittedFn imgCol))
          = some (toUint16 (round (SSR fittedFn imgCol / SSTO imgCol * 100)))) := by
  have hmem : ∀ img : FitObs,
      some img ∈ applyTemporalFilter (fitLogisticRegression fittedFn imgCol) →
      img.R2 = SSR fittedFn imgCol / SSTO imgCol := by
    intro img h
    exact (mem_fitLogisticRegression fittedFn imgCol img
      (mem_of_mem_applyTemporalFilter _ img h)).2.2
  refine ⟨rfl, ?_, hmem, ?_⟩
  · intro img h
    exact (mem_fitLogisticRegression fittedFn imgCol img h).2.2
  · intro img hfn
    have hR2 := hmem img (mem_of_firstNonNull _ img hfn)
    unfold rSquaredBand
    rw [firstNonNull_map, hfn]
    simp only [Option.map_some']
    rw [hR2]

/-- Witness for C6: a two-observation pixel with constant fitted value 1/2;
both observations survive and the reported R2 band equals the cast of
100 * SSR/SSTO. -/
theorem addRsquared_classical_decomposition_witness :
    rSquaredBand (applyTemporalFilter (fitLogisticRegression (fun _ => (1 : ℚ)/2)
        [some ⟨1, 1/4, 50, false⟩, some ⟨0, 3/4, 100, false⟩]))
      = some (toUint16 (round (SSR (fun _ => (1 : ℚ)/2)
            [some ⟨1, 1/4, 50, false⟩, some ⟨0, 3/4, 100, false⟩]
          / SSTO [some ⟨1, 1/4, 50, false⟩, some ⟨0, 3/4, 100, false⟩] * 100))) := by
  have hfit : fitLogisticRegression (fun _ => (1 : ℚ)/2)
      [some ⟨1, 1/4, 50, false⟩, some ⟨0, 3/4, 100, false⟩]
      = [some ⟨1, 1/4, 50, false, 1/2, -1/2, 0⟩,
          some ⟨0, 3/4, 100, false, 1/2, 1/2, 0⟩] := by
    norm_num [fitLogisticRegression, R2val, SSR, SSTO, yflat, presentLog,
      List.filterMap_cons, List.filterMap_nil, id_eq]
  have hfil : applyTemporalFilter
      [some ⟨1, (1:ℚ)/4, 50, false, 1/2, -1/2, 0⟩,
        some ⟨0, 3/4, 100, false, 1/2, 1/2, 0⟩]
      = [some ⟨1, 1/4, 50, false, 1/2, -1/2, 0⟩,
          some ⟨0, 3/4, 100, false, 1/2, 1/2, 0⟩] := by
    norm_num [applyTemporalFilter, temporalFilter, abs_le]
  exact (addRsquared_classical_decomposition (fun _ => (1 : ℚ)/2)
      [some ⟨1, 1/4, 50, false⟩, some ⟨0, 3/4, 100, false⟩]).2.2.2
    ⟨1, 1/4, 50, false, 1/2, -1/2, 0⟩ (by rw [hfit, hfil]; rfl)

lemma countP_isSome_map {α β : Type} (f : α → β) (l : List (Option α)) :
    (l.map (Option.map f)).countP Option.isSome = l.countP Option.isSome := by
  induction l with
  | nil => rfl
  | cons o rest ih => cases o <;> simp [List.countP_cons, ih]

lemma nPixelsBand_count (classCol : List (Option ℕ)) :
    nPixelsBand classCol = (classCol.countP Option.isSome) % 65536 := by
  unfold nPixelsBand
  have h : (classCol ++ [some 0]).countP Option.isSome
      = classCol.countP Option.isSome + 1 := by
    rw [List.countP_append]
    rfl
  rw [h, Nat.add_sub_cancel]

/-- C2: in the assembled output record, breakupDate equals the t_1 band
exactly (the first open-water timestamp, not an average of t_1 and t_2) and
breakupGap equals t_1 - t_2 cast to uint16, each present only when
seqDetected = 1 at an unmasked pixel; both are masked whenever the pixel is
masked or undetected; and the R2 band equals round(R2 * 100) cast to uint16
reduced from the filtered collection, independently of detection success. -/
theorem breakupDetection_band_assembly (fittedFn : ℚ → ℚ)
    (imgCol : List (Option LogObs)) (p : ℕ) (y : ℤ) :
    (∀ d, (breakupDetection true fittedFn imgCol p y).breakupDate = some d →
        ∃ s, detectSpringBreakup
              ((applyTemporalFilter (fitLogisticRegression fittedFn imgCol)).map
                (fun o => o.map obsOfFit)) p = some s
          ∧ s.seqDetected = 1 ∧ d = s.t_1)
    ∧ (∀ g, (breakupDetection true fittedFn imgCol p y).breakupGap = some g →
        ∃ s, detectSpringBreakup
              ((applyTemporalFilter (fitLogisticRegression fittedFn imgCol)).map
                (fun o => o.map obsOfFit)) p = some s
          ∧ s.seqDetected = 1 ∧ g = toUint16 ((s.t_1 : ℤ) - (s.t_2 : ℤ)))
    ∧ (∀ s, detectSpringBreakup
            ((applyTemporalFilter (fitLogisticRegression fittedFn imgCol)).map
              (fun o => o.map obsOfFit)) p = some s →
        s.seqDetected ≠ 1 →
        (breakupDetection true fittedFn imgCol p y).breakupDate = none
          ∧ (breakupDetection true fittedFn imgCol p y).breakupGap = none)
    ∧ (detectSpringBreakup
          ((applyTemporalFilter (fitLogisticRegression fittedFn imgCol)).map
            (fun o => o.map obsOfFit)) p = none →
        (breakupDetection true fittedFn imgCol p y).breakupDate = none
          ∧ (breakupDetection true fittedFn imgCol p y).breakupGap = none)
    ∧ (breakupDetection true fittedFn imgCol p y).R2
        = rSquaredBand (applyTemporalFilter (fitLogisticRegression fittedFn imgCol)) := by
  have hbd : breakupDetection true fittedFn imgCol p y
      = assembleBreakupBands
          (detectSpringBreakup
            ((applyTemporalFilter (fitLogisticRegression fittedFn imgCol)).map
              (fun o => o.map obsOfFit)) p)
          (rSquaredBand (applyTemporalFilter (fitLogisticRegression fittedFn imgCol)))
          (nPixelsBand
            ((applyTemporalFilter (fitLogisticRegression fittedFn imgCol)).map
              (fun o => o.map FitObs.classIce)))
          y := rfl
  refine ⟨?_, ?_, ?_, ?_, ?_⟩
  · intro d hd
    rw [hbd] at hd
    simp only [assembleBreakupBands] at hd
    cases hds : detectSpringBreakup
        ((applyTemporalFilter (fitLogisticRegression fittedFn imgCol)).map
          (fun o => o.map obsOfFit)) p with
    | none => rw [hds] at hd; simp at hd
    | some s =>
      rw [hds] at hd
      simp only [Option.some_bind] at hd
      by_cases h1 : s.seqDetected = 1
      · rw [if_pos h1] at hd
        exact ⟨s, rfl, h1, (Option.some.inj hd).symm⟩
      · rw [if_neg h1] at hd
        exact Option.noConfusion hd
  · intro g hg
    rw [hbd] at hg
    simp only [assembleBreakupBands] at hg
    cases hds : detectSpringBreakup
        ((applyTemporalFilter (fitLogisticRegression fittedFn imgCol)).map
          (fun o => o.map obsOfFit)) p with
    | none => rw [hds] at hg; simp at hg
    | some s =>
      rw [hds] at hg
      simp only [Option.some_bind] at hg
      by_cases h1 : s.seqDetected = 1
      · rw [if_pos h1] at hg
        exact ⟨s, rfl, h1, (Option.some.inj hg).symm⟩
      · rw [if_neg h1] at hg
        exact Option.noConfusion hg
  · intro s hds h1
    rw [hbd]
    simp [assembleBreakupBands, hds, h1]
  · intro hds
    rw [hbd]
    simp [assembleBreakupBands, hds]
  · rw [hbd]
    rfl

/-- Witness for C2: a two-observation pixel (ICE then WATER) passes the
filter, reaches the detector unmasked with seqDetected = 0, and both the
breakupDate and breakupGap bands of the output are masked. -/
theorem breakupDetection_band_assembly_witness :
    (breakupDetection true (fun _ => (1 : ℚ)/2)
        [some ⟨1, 1/10, 50, false⟩, some ⟨0, 1/2, 100, false⟩] 46 2017).breakupDate = none
    ∧ (breakupDetection true (fun _ => (1 : ℚ)/2)
        [some ⟨1, 1/10, 50, false⟩, some ⟨0, 1/2, 100, false⟩] 46 2017).breakupGap
      = none := by
  have hfit : fitLogisticRegression (fun _ => (1 : ℚ)/2)
      [some ⟨1, 1/10, 50, false⟩, some ⟨0, 1/2, 100, false⟩]
      = [some ⟨1, 1/10, 50, false, 1/2, -1/2, 0⟩,
          some ⟨0, 1/2, 100, false, 1/2, 1/2, 0⟩] := by
    norm_num [fitLogisticRegression, R2val, SSR, SSTO, yflat, presentLog,
      List.filterMap_cons, List.filterMap_nil, id_eq]
  have hfil : applyTemporalFilter
      [some ⟨1, (1:ℚ)/10, 50, false, 1/2, -1/2, 0⟩,
        some ⟨0, 1/2, 100, false, 1/2, 1/2, 0⟩]
      = [some ⟨1, 1/10, 50, false, 1/2, -1/2, 0⟩,
          some ⟨0, 1/2, 100, false, 1/2, 1/2, 0⟩] := by
    norm_num [applyTemporalFilter, temporalFilter, abs_le]
  exact (breakupDetection_band_assembly (fun _ => (1 : ℚ)/2)
      [some ⟨1, 1/10, 50, false⟩, some ⟨0, 1/2, 100, false⟩] 46 2017).2.2.1
    ⟨0, 100, 1, 50, 1, 46, 0⟩ (by rw [hfit, hfil]; decide) (by decide)

/-- C9: with logFilter false the robust filter is skipped entirely: the
output record is assembled from the raw collection (so it cannot depend on
any fitted value), the R2 band is fully masked, and nPixels counts the
unmasked observations of the unfiltered series. -/
theorem breakupDetection_no_logFilter (f g : ℚ → ℚ) (imgCol : List (Option LogObs))
    (p : ℕ) (y : ℤ) :
    breakupDetection false f imgCol p y
        = assembleBreakupBands
            (detectSpringBreakup (imgCol.map (fun o => o.map obsOfLog)) p)
            none
            (nPixelsBand (imgCol.map (fun o => o.map LogObs.classIce)))
            y
    ∧ breakupDetection false f imgCol p y = breakupDetection false g imgCol p y
    ∧ (breakupDetection false f imgCol p y).R2 = none
    ∧ (breakupDetection false f imgCol p y).nPixels
        = (imgCol.countP Option.isSome) % 65536 := by
  refine ⟨rfl, rfl, rfl, ?_⟩
  show nPixelsBand (imgCol.map (fun o => o.map LogObs.classIce))
      = (imgCol.countP Option.isSome) % 65536
  rw [nPixelsBand_count, countP_isSome_map]

/-- C8 (amended): the nPixels band of the output counts every unmasked
observation that survives the residual filter, whether real or injected by
addDummyData: the dummy property flags the synthetic water images but
nothing downstream excludes them from the count. -/
theorem nPixels_counts_dummy_observations (fittedFn : ℚ → ℚ)
    (imgCol : List (Option LogObs)) (stamps : List (ℚ × ℕ)) (inMask : Bool)
    (p : ℕ) (y : ℤ) :
    (breakupDetection true fittedFn (addDummyData imgCol stamps inMask) p y).nPixels
      = ((applyTemporalFilter
            (fitLogisticRegression fittedFn (addDummyData imgCol stamps inMask))).countP
          Option.isSome) % 65536 := by
  show nPixelsBand
      ((applyTemporalFilter
        (fitLogisticRegression fittedFn (addDummyData imgCol stamps inMask))).map
        (fun o => o.map FitObs.classIce))
      = _
  rw [nPixelsBand_count, countP_isSome_map]

/-- Counterexample for C8 as frozen: ten real observations produce
nDummy = 1 injected dummy water image; with every observation surviving the
filter (fitted one half everywhere), the count of real, non-dummy, unmasked
survivors is 10, but the nPixels band reports 11: the injected dummy
observation is counted, not excluded. -/
theorem nPixels_includes_injected_dummy :
    nDummy
        [some ⟨1, 1, 50, false⟩, some ⟨1, 2, 60, false⟩, some ⟨1, 3, 70, false⟩,
          some ⟨1, 4, 80, false⟩, some ⟨1, 5, 90, false⟩, some ⟨0, 6, 100, false⟩,
          some ⟨0, 7, 110, false⟩, some ⟨0, 8, 120, false⟩, some ⟨0, 9, 130, false⟩,
          some ⟨0, 10, 140, false⟩] = 1
    ∧ (breakupDetection true (fun _ => (1 : ℚ)/2)
        (addDummyData
          [some ⟨1, 1, 50, false⟩, some ⟨1, 2, 60, false⟩, some ⟨1, 3, 70, false⟩,
            some ⟨1, 4, 80, false⟩, some ⟨1, 5, 90, false⟩, some ⟨0, 6, 100, false⟩,
            some ⟨0, 7, 110, false⟩, some ⟨0, 8, 120, false⟩, some ⟨0, 9, 130, false⟩,
            some ⟨0, 10, 140, false⟩]
          [((11 : ℚ), 250)] true) 46 2017).nPixels = 11
    ∧ (((applyTemporalFilter (fitLogisticRegression (fun _ => (1 : ℚ)/2)
          (addDummyData
            [some ⟨1, 1, 50, false⟩, some ⟨1, 2, 60, false⟩, some ⟨1, 3, 70, false⟩,
              some ⟨1, 4, 80, false⟩, some ⟨1, 5, 90, false⟩, some ⟨0, 6, 100, false⟩,
              some ⟨0, 7, 110, false⟩, some ⟨0, 8, 120, false⟩, some ⟨0, 9, 130, false⟩,
              some ⟨0, 10, 140, false⟩]
            [((11 : ℚ), 250)] true))).filterMap id).filter
        (fun i => !i.dummy)).length = 10 := by
  have hmerge : addDummyData
      [some ⟨1, 1, 50, false⟩, some ⟨1, 2, 60, false⟩, some ⟨1, 3, 70, false⟩,
        some ⟨1, 4, 80, false⟩, some ⟨1, 5, 90, false⟩, some ⟨0, 6, 100, false⟩,
        some ⟨0, 7, 110, false⟩, some ⟨0, 8, 120, false⟩, some ⟨0, 9, 130, false⟩,
        some ⟨0, 10, 140, false⟩]
      [((11 : ℚ), 250)] true
      = [some ⟨1, 1, 50, false⟩, some ⟨1, 2, 60, false⟩, some ⟨1, 3, 70, false⟩,
          some ⟨1, 4, 80, false⟩, some ⟨1, 5, 90, false⟩, some ⟨0, 6, 100, false⟩,
          some ⟨0, 7, 110, false⟩, some ⟨0, 8, 120, false⟩, some ⟨0, 9, 130, false⟩,
          some ⟨0, 10, 140, false⟩, some ⟨0, 11, 250, true⟩] := rfl
  have hfit : fitLogisticRegression (fun _ => (1 : ℚ)/2)
      [some ⟨1, 1, 50, false⟩, some ⟨1, 2, 60, false⟩, some ⟨1, 3, 70, false⟩,
        some ⟨1, 4, 80, false⟩, some ⟨1, 5, 90, false⟩, some ⟨0, 6, 100, false⟩,
        some ⟨0, 7, 110, false⟩, some ⟨0, 8, 120, false⟩, some ⟨0, 9, 130, false⟩,
        some ⟨0, 10, 140, false⟩, some ⟨0, 11, 250, true⟩]
      = [some ⟨1, 1, 50, false, 1/2, -1/2, 1/120⟩,
          some ⟨1, 2, 60, false, 1/2, -1/2, 1/120⟩,
          some ⟨1, 3, 70, false, 1/2, -1/2, 1/120⟩,
          some ⟨1, 4, 80, false, 1/2, -1/2, 1/120⟩,
          some ⟨1, 5, 90, false, 1/2, -1/2, 1/120⟩,
          some ⟨0, 6, 100, false, 1/2, 1/2, 1/120⟩,
          some ⟨0, 7, 110, false, 1/2, 1/2, 1/120⟩,
          some ⟨0, 8, 120, false, 1/2, 1/2, 1/120⟩,
          some ⟨0, 9, 130, false, 1/2, 1/2, 1/120⟩,
          some ⟨0, 10, 140, false, 1/2, 1/2, 1/120⟩,
          some ⟨0, 11, 250, true, 1/2, 1/2, 1/120⟩] := by
    norm_num [fitLogisticRegression, R2val, SSR, SSTO, yflat, presentLog,
      List.filterMap_cons, List.filterMap_nil, id_eq]
  have hfil : applyTemporalFilter
      [some ⟨1, (1:ℚ), 50, false, 1/2, -1/2, 1/120⟩,
        some ⟨1, 2, 60, false, 1/2, -1/2, 1/120⟩,
        some ⟨1, 3, 70, false, 1/2, -1/2, 1/120⟩,
        some ⟨1, 4, 80, false, 1/2, -1/2, 1/120⟩,
        some ⟨1, 5, 90, false, 1/2, -1/2, 1/120⟩,
        some ⟨0, 6, 100, false, 1/2, 1/2, 1/120⟩,
        some ⟨0, 7, 110, false, 1/2, 1/2, 1/120⟩,
        some ⟨0, 8, 120, false, 1/2, 1/2, 1/120⟩,
        some ⟨0, 9, 130, false, 1/2, 1/2, 1/120⟩,
        some ⟨0, 10, 140, false, 1/2, 1/2, 1/120⟩,
        some ⟨0, 11, 250, true, 1/2, 1/2, 1/120⟩]
      = [some ⟨1, 1, 50, false, 1/2, -1/2, 1/120⟩,
          some ⟨1, 2, 60, false, 1/2, -1/2, 1/120⟩,
          some ⟨1, 3, 70, false, 1/2, -1/2, 1/120⟩,
          some ⟨1, 4, 80, false, 1/2, -1/2, 1/120⟩,
          some ⟨1, 5, 90, false, 1/2, -1/2, 1/120⟩,
          some ⟨0, 6, 100, false, 1/2, 1/2, 1/120⟩,
          some ⟨0, 7, 110, false, 1/2, 1/2, 1/120⟩,
          some ⟨0, 8, 120, false, 1/2, 1/2, 1/120⟩,
          some ⟨0, 9, 130, false, 1/2, 1/2, 1/120⟩,
          some ⟨0, 10, 140, false, 1/2, 1/2, 1/120⟩,
          some ⟨0, 11, 250, true, 1/2, 1/2, 1/120⟩] := by
    norm_num [applyTemporalFilter, temporalFilter, abs_le]
  refine ⟨?_, ?_, ?_⟩
  · norm_num [nDummy, round_eq]
  · have h1 : (breakupDetection true (fun _ => (1 : ℚ)/2)
        (addDummyData
          [some ⟨1, 1, 50, false⟩, some ⟨1, 2, 60, false⟩, some ⟨1, 3, 70, false⟩,
            some ⟨1, 4, 80, false⟩, some ⟨1, 5, 90, false⟩, some ⟨0, 6, 100, false⟩,
            some ⟨0, 7, 110, false⟩, some ⟨0, 8, 120, false⟩, some ⟨0, 9, 130, false⟩,
            some ⟨0, 10, 140, false⟩]
          [((11 : ℚ), 250)] true) 46 2017).nPixels
        = ((applyTemporalFilter (fitLogisticRegression (fun _ => (1 : ℚ)/2)
            (addDummyData
              [some ⟨1, 1, 50, false⟩, some ⟨1, 2, 60, false⟩, some ⟨1, 3, 70, false⟩,
                some ⟨1, 4, 80, false⟩, some ⟨1, 5, 90, false⟩, some ⟨0, 6, 100, false⟩,
                some ⟨0, 7, 110, false⟩, some ⟨0, 8, 120, false⟩, some ⟨0, 9, 130, false⟩,
                some ⟨0, 10, 140, false⟩]
              [((11 : ℚ), 250)] true))).countP Option.isSome) % 65536 := by
      show nPixelsBand _ = _
      rw [nPixelsBand_count, countP_isSome_map]
    rw [h1, hmerge, hfit, hfil]
    decide
  · rw [hmerge, hfit, hfil]
    decide
